import Mathlib

/-!
Verification development for the YouTranser repository.

The definitions below are a shallow embedding, in Lean 4, of the parts of the
repository that the checked claims talk about:

* `EyerAVReader.Read` (both variants) from `EyerAVReader.cpp`,
* `EyerAVEncoder.Init` from `EyerAVEncoder.cpp`,
* the transcode core `EyerAVTranscode` from `EyerAVTranscode.cpp`
  (frame-count computation, the video burst `TranscodeVideo`, the audio
  end-of-stream flush block, and the writer-event skeleton of `Transcode`),
* the task-scheduling loop `StartTranscodeClickListenerInternal` from
  `YouTransMainWindow.cpp`.

Machine integers of the C++ source are modelled as `Int` with explicit
wrapping in the style of machine arithmetic where overflow matters; C++ `double` values that
carry media time are modelled as `Rat`.  External codec-library calls
(FFmpeg) are modelled by explicit oracle parameters: the embedded functions
are parametric in the data those calls would return, and the theorems
quantify over all oracles.
-/

namespace YouTranser

/-! ## Basic data: rationals, 64-bit integers, sentinel values -/

/-- Time base, mirroring `EyerAVRational` (a pair of C `int` fields). -/
structure EyerAVRational where
  num : Int
  den : Int
deriving DecidableEq, Repr

/-- Wrap of an integer, modulo 2 to the 64, into the signed 64-bit range.
This models what the generated code of `int64_t` arithmetic does on
overflow. -/
def wrap64 (x : Int) : Int :=
  (x + 2 ^ 63) % 2 ^ 64 - 2 ^ 63

/-- The FFmpeg sentinel `AV_NOPTS_VALUE`, which is `INT64_MIN`. -/
def AV_NOPTS_VALUE : Int := -(2 ^ 63)

/-- Truncation toward zero of a rational to an integer.  This is the
conversion C++ performs when a `double` expression is assigned to an
integer variable. -/
def cppTrunc (x : Rat) : Int :=
  if 0 ≤ x then ⌊x⌋ else -⌊-x⌋

/-! ## EyerAVReader.Read (src/unnamed/part_004, EyerAVReader.cpp)

The reader hands out packets whose `pts` may be normalised against the
stream start time.  We model the packet fields the two `Read` variants
touch, and the per-stream data they consult.  The call to `av_read_frame`
is the oracle: a `Read` run is modelled as the transformation the C++ code
applies to a successfully read packet (`ret == 0`); on failure the packet
is untouched, which we model with `Option`. -/

/-- Fields of `EyerAVPacket` that `EyerAVReader::Read` reads or writes. -/
structure ReadPacket where
  pts : Int
  streamIndex : Int
  secPTS : Rat
deriving DecidableEq, Repr

/-- Per-stream data consulted by `EyerAVReader::Read`: the stream
`start_time` (possibly `AV_NOPTS_VALUE`) and the stream time base. -/
structure ReaderStream where
  start_time : Int
  time_base : EyerAVRational
deriving DecidableEq, Repr

/-- Value of `av_q2d` on a time base: `num / den` as a rational. -/
def av_q2d (q : EyerAVRational) : Rat :=
  (q.num : Rat) / (q.den : Rat)

namespace EyerAVReader

/-- Embedding of the pointer variant `EyerAVReader::Read(EyerAVPacket *)`
(part_004 lines 315 to 330).  After a successful `av_read_frame` it
subtracts the stream `start_time` from `pts` unconditionally (no
`AV_NOPTS_VALUE` check) and recomputes `secPTS`. -/
def ReadPtrVariant (stream : ReaderStream) (readResult : Option ReadPacket) :
    Option ReadPacket :=
  match readResult with
  | none => none
  | some packet =>
    let pts := wrap64 (packet.pts - stream.start_time)
    some { packet with
            pts := pts
            secPTS := (pts : Rat) * av_q2d stream.time_base }

/-- Embedding of the reference variant `EyerAVReader::Read(EyerAVPacket &)`
(part_004 lines 340 to 371).  After a successful `av_read_frame` it
subtracts the stream `start_time` from `pts` only when `start_time` is not
`AV_NOPTS_VALUE`, and recomputes `secPTS` only when the resulting `pts` is
not `AV_NOPTS_VALUE`. -/
def ReadRefVariant (stream : ReaderStream) (readResult : Option ReadPacket) :
    Option ReadPacket :=
  match readResult with
  | none => none
  | some packet =>
    let pts :=
      if stream.start_time ≠ AV_NOPTS_VALUE then
        wrap64 (packet.pts - stream.start_time)
      else
        packet.pts
    let secPTS :=
      if pts ≠ AV_NOPTS_VALUE then
        (pts : Rat) * av_q2d stream.time_base
      else
        packet.secPTS
    some { packet with pts := pts, secPTS := secPTS }

end EyerAVReader

/-! ## Frame-count computation (EyerAVTranscode.cpp lines 82 to 88)

`InitDeocder` stores the video stream duration, clamping negative values to
zero (lines 207 to 211); `Transcode` then computes
`frameCount = videoDuration * params.fps` into an integer member, with a
minimum of one frame.  The assignment of the `double` product to the
integral member truncates toward zero. -/

/-- Clamp applied to the stream duration in `InitDeocder`:
`if(videoDuration <= 0) videoDuration = 0`. -/
def clampDuration (d : Rat) : Rat :=
  if d ≤ 0 then 0 else d

/-- Embedding of the frame-count computation performed by
`EyerAVTranscode::Transcode` before its main loop:
`frameCount = videoDuration * params.fps; if(frameCount <= 0) frameCount = 1`. -/
def computeFrameCount (streamDuration : Rat) (fps : Rat) : Int :=
  let videoDuration := clampDuration streamDuration
  let frameCount := cppTrunc (videoDuration * fps)
  if frameCount ≤ 0 then 1 else frameCount

/-! ## EyerAVEncoder.Init (EyerAVEncoder.cpp lines 77 to 687)

The encoder wrapper owns at most one FFmpeg codec context.  `Init` is a
chain of per-codec branches; every branch first checks whether a context is
already allocated and, if so, frees it and returns `-1`.  Otherwise it
allocates a fresh context, fills in the per-codec fields, and finally calls
the external `avcodec_open2`, whose result is returned.  We model the
context by the fields the branches assign, the allocation by
`allocContextDefaults` (FFmpeg initialises `time_base` to `0/1`), and the
`avcodec_open2` result by the oracle argument `openRet`.  The channel count
derived by the external `av_get_channel_layout_nb_channels` is not
modelled. -/

/-- Codec identifiers handled by `EyerAVEncoder::Init`, plus a constructor
for any identifier outside that list. -/
inductive EyerAVCodecID where
  | CODEC_ID_H264
  | CODEC_ID_H265
  | CODEC_ID_VP8
  | CODEC_ID_VP9
  | CODEC_ID_MJPEG
  | CODEC_ID_PNG
  | CODEC_ID_AAC
  | CODEC_ID_LIB_OPUS
  | CODEC_ID_MP3
  | CODEC_ID_FLAC
  | CODEC_ID_PCM_S16LE
  | CODEC_ID_PCM_S32LE
  | CODEC_ID_PRORES
  | CODEC_ID_SRT
  | CODEC_ID_OTHER
deriving DecidableEq, Repr

/-- Media kind stored in `codec_type`.  The audio constructor carries a
KIND suffix on top of the FFmpeg name. -/
inductive AVMediaType where
  | AVMEDIA_TYPE_UNKNOWN
  | AVMEDIA_TYPE_VIDEO
  | AVMEDIA_TYPE_AUDIO_KIND
  | AVMEDIA_TYPE_SUBTITLE
deriving DecidableEq, Repr

/-- Parameter object `EyerAVEncoderParam`, restricted to the fields read by
`EyerAVEncoder::Init`. -/
structure EyerAVEncoderParam where
  codecId : EyerAVCodecID
  width : Int
  height : Int
  pixelFormat : Int
  threadnum : Int
  timebase : EyerAVRational
  crf : Int
  sample_rate : Int
  sampleFormat : Int
  channelLayout : Int
deriving DecidableEq, Repr

/-- Fields of the FFmpeg codec context that `EyerAVEncoder::Init`
assigns. -/
structure AVCodecContextModel where
  codec_type : AVMediaType
  pix_fmt : Int
  width : Int
  height : Int
  thread_count : Int
  time_base : EyerAVRational
  sample_fmt : Int
  sample_rate : Int
  channel_layout : Int
  global_quality : Int
  flags : Int
  codec_tag : Int
deriving DecidableEq, Repr

/-- State of a freshly allocated codec context (`avcodec_alloc_context3`):
in particular FFmpeg initialises `time_base` to `0/1`. -/
def allocContextDefaults : AVCodecContextModel where
  codec_type := .AVMEDIA_TYPE_UNKNOWN
  pix_fmt := 0
  width := 0
  height := 0
  thread_count := 0
  time_base := ⟨0, 1⟩
  sample_fmt := 0
  sample_rate := 0
  channel_layout := 0
  global_quality := 0
  flags := 0
  codec_tag := 0

/-- Numeric value of `FF_QP2LAMBDA`. -/
def FF_QP2LAMBDA : Int := 118

/-- Numeric value of `AV_CODEC_FLAG_QSCALE`. -/
def AV_CODEC_FLAG_QSCALE : Int := 2

/-- Numeric value of the pixel format `AV_PIX_FMT_YUVJ420P` forced by the
MJPEG branch. -/
def AV_PIX_FMT_YUVJ420P : Int := 12

/-- Numeric value of `MKTAG` applied to the four characters of `hvc1`. -/
def MKTAG_hvc1 : Int := 0x31637668

namespace EyerAVEncoder

/-- Embedding of `EyerAVEncoder::Init`.  The first component of the result
is the codec context owned by the encoder after the call, the second is the
return value.  `openRet` stands for the result of the final external
`avcodec_open2` call.  Every supported branch frees an already-allocated
context and returns `-1`; when no branch matches, no context is touched and
the function falls through to `avcodec_open2`. -/
def Init (openRet : Int) (ctx : Option AVCodecContextModel)
    (param : EyerAVEncoderParam) : Option AVCodecContextModel × Int :=
  if param.codecId = .CODEC_ID_H264 then
    match ctx with
    | some _ => (none, -1)
    | none =>
      (some { allocContextDefaults with
                codec_type := .AVMEDIA_TYPE_VIDEO
                pix_fmt := param.pixelFormat
                width := param.width
                height := param.height
                thread_count := param.threadnum
                time_base := param.timebase }, openRet)
  else if param.codecId = .CODEC_ID_H265 then
    match ctx with
    | some _ => (none, -1)
    | none =>
      (some { allocContextDefaults with
                global_quality := FF_QP2LAMBDA * 75
                flags := AV_CODEC_FLAG_QSCALE
                codec_type := .AVMEDIA_TYPE_VIDEO
                codec_tag := MKTAG_hvc1
                pix_fmt := param.pixelFormat
                width := param.width
                height := param.height
                thread_count := param.threadnum
                time_base := param.timebase }, openRet)
  else if param.codecId = .CODEC_ID_VP8 then
    match ctx with
    | some _ => (none, -1)
    | none =>
      (some { allocContextDefaults with
                codec_type := .AVMEDIA_TYPE_VIDEO
                pix_fmt := param.pixelFormat
                width := param.width
                height := param.height
                time_base := param.timebase }, openRet)
  else if param.codecId = .CODEC_ID_VP9 then
    match ctx with
    | some _ => (none, -1)
    | none =>
      (some { allocContextDefaults with
                codec_type := .AVMEDIA_TYPE_VIDEO
                pix_fmt := param.pixelFormat
                width := param.width
                height := param.height
                thread_count := 32
                time_base := param.timebase }, openRet)
  else if param.codecId = .CODEC_ID_MJPEG then
    match ctx with
    | some _ => (none, -1)
    | none =>
      (some { allocContextDefaults with
                codec_type := .AVMEDIA_TYPE_VIDEO
                pix_fmt := AV_PIX_FMT_YUVJ420P
                width := param.width
                height := param.height
                time_base := param.timebase }, openRet)
  else if param.codecId = .CODEC_ID_PNG then
    match ctx with
    | some _ => (none, -1)
    | none =>
      (some { allocContextDefaults with
                codec_type := .AVMEDIA_TYPE_VIDEO
                pix_fmt := param.pixelFormat
                width := param.width
                height := param.height
                time_base := param.timebase }, openRet)
  else if param.codecId = .CODEC_ID_AAC then
    match ctx with
    | some _ => (none, -1)
    | none =>
      (some { allocContextDefaults with
                codec_type := .AVMEDIA_TYPE_AUDIO_KIND
                sample_fmt := param.sampleFormat
                sample_rate := param.sample_rate
                channel_layout := param.channelLayout
                time_base := ⟨1, param.sample_rate⟩ }, openRet)
  else if param.codecId = .CODEC_ID_LIB_OPUS then
    match ctx with
    | some _ => (none, -1)
    | none =>
      (some { allocContextDefaults with
                codec_type := .AVMEDIA_TYPE_AUDIO_KIND
                sample_fmt := param.sampleFormat
                sample_rate := param.sample_rate
                channel_layout := param.channelLayout
                time_base := ⟨1, param.sample_rate⟩ }, openRet)
  else if param.codecId = .CODEC_ID_MP3 then
    match ctx with
    | some _ => (none, -1)
    | none =>
      (some { allocContextDefaults with
                codec_type := .AVMEDIA_TYPE_AUDIO_KIND
                sample_fmt := param.sampleFormat
                sample_rate := param.sample_rate
                channel_layout := param.channelLayout }, openRet)
  else if param.codecId = .CODEC_ID_FLAC then
    match ctx with
    | some _ => (none, -1)
    | none =>
      (some { allocContextDefaults with
                codec_type := .AVMEDIA_TYPE_AUDIO_KIND
                sample_fmt := param.sampleFormat
                sample_rate := param.sample_rate
                channel_layout := param.channelLayout }, openRet)
  else if param.codecId = .CODEC_ID_PCM_S16LE then
    match ctx with
    | some _ => (none, -1)
    | none =>
      (some { allocContextDefaults with
                codec_type := .AVMEDIA_TYPE_AUDIO_KIND
                sample_fmt := param.sampleFormat
                sample_rate := param.sample_rate
                channel_layout := param.channelLayout }, openRet)
  else if param.codecId = .CODEC_ID_PCM_S32LE then
    match ctx with
    | some _ => (none, -1)
    | none =>
      (some { allocContextDefaults with
                codec_type := .AVMEDIA_TYPE_AUDIO_KIND
                sample_fmt := param.sampleFormat
                sample_rate := param.sample_rate
                channel_layout := param.channelLayout }, openRet)
  else if param.codecId = .CODEC_ID_PRORES then
    match ctx with
    | some _ => (none, -1)
    | none =>
      (some { allocContextDefaults with
                codec_type := .AVMEDIA_TYPE_VIDEO
                pix_fmt := param.pixelFormat
                width := param.width
                height := param.height
                thread_count := param.threadnum
                time_base := param.timebase }, openRet)
  else if param.codecId = .CODEC_ID_SRT then
    match ctx with
    | some _ => (none, -1)
    | none =>
      (some { allocContextDefaults with
                codec_type := .AVMEDIA_TYPE_SUBTITLE
                time_base := param.timebase }, openRet)
  else
    (ctx, openRet)

/-- A codec id is supported when some branch of `EyerAVEncoder::Init`
handles it. -/
def SupportedCodecId (c : EyerAVCodecID) : Prop :=
  c ≠ .CODEC_ID_OTHER

instance (c : EyerAVCodecID) : Decidable (SupportedCodecId c) := by
  unfold SupportedCodecId; infer_instance

end EyerAVEncoder

/-- Codec ids whose `EyerAVEncoder::Init` branch builds a video encoder. -/
def VideoCodecId (c : EyerAVCodecID) : Prop :=
  c = .CODEC_ID_H264 ∨ c = .CODEC_ID_H265 ∨ c = .CODEC_ID_VP8 ∨
    c = .CODEC_ID_VP9 ∨ c = .CODEC_ID_MJPEG ∨ c = .CODEC_ID_PNG ∨
    c = .CODEC_ID_PRORES

instance (c : EyerAVCodecID) : Decidable (VideoCodecId c) := by
  unfold VideoCodecId; infer_instance

/-! ## Encoder parameter construction in the transcode core
(EyerAVTranscode.cpp lines 455 to 511) -/

/-- Modelled from the spec: `EyerAVEncoderParam::InitMP3` lives in
`EyerAVEncoderParam.cpp`, which is not part of the available sources.  Per
the specification, the MP3 variant of the encoder-parameter union carries
`sample_rate`, `sample_format`, `channel_layout` and
`time_base = 1/sample_rate`; `InitMP3` fills exactly those fields and sets
the codec id to MP3. -/
def EyerAVEncoderParam.InitMP3 (channelLayout sampleFormat sample_rate : Int) :
    EyerAVEncoderParam where
  codecId := .CODEC_ID_MP3
  width := 0
  height := 0
  pixelFormat := 0
  threadnum := 0
  timebase := ⟨1, sample_rate⟩
  crf := 0
  sample_rate := sample_rate
  sampleFormat := sampleFormat
  channelLayout := channelLayout

/-- FFmpeg id of the stereo channel layout `AV_CH_LAYOUT_STEREO`. -/
def AV_CH_LAYOUT_STEREO : Int := 3

/-- FFmpeg id of the planar float sample format `AV_SAMPLE_FMT_FLTP`. -/
def AV_SAMPLE_FMT_FLTP : Int := 8

/-- Embedding of the video half of `EyerAVTranscode::InitEncoder`: starting
from the parameters inherited from the input stream (`InitFromStream`,
represented by `base`), it overwrites the time base with `1/1000` and the
dimensions with the configured target size before calling
`EyerAVEncoder::Init`. -/
def InitEncoderVideoParams (base : EyerAVEncoderParam)
    (targetWidth targetHeight : Int) : EyerAVEncoderParam :=
  { base with
      timebase := ⟨1, 1000⟩
      width := targetWidth
      height := targetHeight }

/-- Embedding of the audio half of `EyerAVTranscode::InitEncoder`: the
audio encoder parameters are built by
`InitMP3(EYER_AV_CH_LAYOUT_STEREO, SAMPLE_FMT_FLTP, 44100)`. -/
def InitEncoderAudioParams : EyerAVEncoderParam :=
  EyerAVEncoderParam.InitMP3 AV_CH_LAYOUT_STEREO AV_SAMPLE_FMT_FLTP 44100

/-! ## Timestamp rescaling and the mux path

`EyerAVTranscode` writes every encoded packet with the same three calls
(`EyerAVTranscode.cpp` lines 130 to 132, 171 to 173, 393 to 395, 432 to
434): set the output stream index, rescale the timestamps from the encoder
time base to the writer time base, write the packet.  `RescaleTs` wraps the
external `av_packet_rescale_ts`, which applies `av_rescale_q` with rounding
to the nearest integer, halfway cases away from zero, and passes the
`AV_NOPTS_VALUE` sentinel through. -/

/-- Fields of `EyerAVPacket` involved in the mux path. -/
structure MuxPacket where
  pts : Int
  dts : Int
  duration : Int
  streamIndex : Int
deriving DecidableEq, Repr

/-- Rounding to the nearest integer of `n / d` for `d > 0`, halfway cases
away from zero: the `AV_ROUND_NEAR_INF` mode of `av_rescale_rnd`. -/
def avRoundNearInf (n d : Int) : Int :=
  if 0 ≤ n then ⌊(n : Rat) / (d : Rat) + 1 / 2⌋ else -⌊((-n : Int) : Rat) / (d : Rat) + 1 / 2⌋

/-- Model of `av_rescale_q a bq cq`, which is
`av_rescale_rnd (a, bq.num * cq.den, cq.num * bq.den, AV_ROUND_NEAR_INF)`. -/
def av_rescale_q (a : Int) (bq cq : EyerAVRational) : Int :=
  avRoundNearInf (a * (bq.num * cq.den)) (cq.num * bq.den)

namespace EyerAVPacket

/-- Embedding of `EyerAVPacket::SetStreamIndex`. -/
def SetStreamIndex (p : MuxPacket) (streamIndex : Int) : MuxPacket :=
  { p with streamIndex := streamIndex }

/-- Embedding of `EyerAVPacket::RescaleTs`, which forwards to the external
`av_packet_rescale_ts(pkt, codecTimebase, streamTimebase)`: `pts` and `dts`
are rescaled unless they hold `AV_NOPTS_VALUE`, `duration` is rescaled when
positive. -/
def RescaleTs (p : MuxPacket) (codecTimebase streamTimebase : EyerAVRational) :
    MuxPacket :=
  { p with
      pts := if p.pts ≠ AV_NOPTS_VALUE then av_rescale_q p.pts codecTimebase streamTimebase else p.pts
      dts := if p.dts ≠ AV_NOPTS_VALUE then av_rescale_q p.dts codecTimebase streamTimebase else p.dts
      duration := if 0 < p.duration then av_rescale_q p.duration codecTimebase streamTimebase else p.duration }

end EyerAVPacket

/-- The transformation the transcode core applies to one encoded packet
before `writer.WritePacket`: set the output stream index, then rescale from
the encoder time base to the writer time base.  No other adjustment is
performed on the packet. -/
def muxPrepare (streamIndex : Int) (encTimebase writerTimebase : EyerAVRational)
    (p : MuxPacket) : MuxPacket :=
  EyerAVPacket.RescaleTs (EyerAVPacket.SetStreamIndex p streamIndex)
    encTimebase writerTimebase

/-- The `dts` values actually handed to the muxer when a batch of encoder
packets flows through the write path of one pipeline. -/
def muxedDtsSeq (streamIndex : Int) (encTimebase writerTimebase : EyerAVRational)
    (packets : List MuxPacket) : List Int :=
  packets.map (fun p => (muxPrepare streamIndex encTimebase writerTimebase p).dts)

/-! ## The video burst (EyerAVTranscode.cpp lines 348 to 408)

`TranscodeVideo(limitTime, frameOffset)` first reports `-1` when
`frameOffset >= frameCount`.  Otherwise it loops: compute
`pts = frameOffset / fps`, pull the decoded frame at that time from the
decoder box (the external `decoderBox.GetFrame`, modelled by the oracle
`getFrameOk`), and on failure return `-1`; on success scale the frame, set
its pts and submit it to the encoder (we record the submitted frame index),
drain and write the encoder output; then, if `pts > limitTime`, advance
`frameOffset` and return `0`, else advance `frameOffset` and iterate.

The C++ loop terminates only through its two `return` statements, so the
embedding uses explicit fuel and yields `none` when the fuel runs out:
every `some` result corresponds to a real terminating run of the loop. -/

/-- One burst result: the return code, the final `frameOffset` and the
indices of the frames submitted to the encoder during the burst. -/
def TranscodeVideoLoop (fps limitTime : Rat) (getFrameOk : Int → Bool) :
    Nat → Int → Option (Int × Int × List Int)
  | 0, _ => none
  | fuel + 1, frameOffset =>
    let pts : Rat := (frameOffset : Rat) / fps
    if getFrameOk frameOffset = false then
      some (-1, frameOffset, [])
    else
      -- the frame is scaled, given pts, and pushed through encoder and writer
      if pts > limitTime then
        some (0, frameOffset + 1, [frameOffset])
      else
        match TranscodeVideoLoop fps limitTime getFrameOk fuel (frameOffset + 1) with
        | none => none
        | some (ret, offFinal, encoded) => some (ret, offFinal, frameOffset :: encoded)

/-- Embedding of `EyerAVTranscode::TranscodeVideo`: the guard
`frameOffset >= frameCount` in front of the loop, then the loop itself. -/
def TranscodeVideo (fps limitTime : Rat) (frameCount : Int)
    (getFrameOk : Int → Bool) (fuel : Nat) (frameOffset : Int) :
    Option (Int × Int × List Int) :=
  if frameOffset ≥ frameCount then
    some (-1, frameOffset, [])
  else
    TranscodeVideoLoop fps limitTime getFrameOk fuel frameOffset

/-! ## The audio end-of-stream flush (EyerAVTranscode.cpp lines 139 to 176)

After the interleave loop ends, the audio branch: signals end of input to
the resampler (`PutAVFrameNULL`), drains `GetFrame` until it reports end
(the loop body only logs, the `SendFrame` call there is commented out),
calls `GetLastFrame` once and, on success, sets the frame pts to
`audioOffset` and advances `audioOffset` by the encoder frame size (the
`SendFrame` call is commented out here as well), then flushes the encoder
(`SendFrameNull` followed by the `RecvPacket` drain whose packets go
through the mux path). -/

/-- Oracle for the external resampler and encoder calls of the audio
flush: how many full-size frames the exact drain yields, whether
`GetLastFrame` yields a short remainder frame, and the packets the encoder
drain yields after `SendFrameNull`. -/
structure AudioFlushOracle where
  exactDrainFrames : Nat
  lastFrame : Bool
  encoderFlushPackets : List MuxPacket
deriving Repr

/-- Outcome of the audio flush block: the final `audioOffset`, the pts
assigned to the remainder frame (when any), the frames submitted to the
encoder by the block before the encoder flush, and the packets written. -/
structure AudioFlushResult where
  audioOffset : Int
  lastFramePts : Option Int
  framesSubmittedToEncoder : List Int
  written : List MuxPacket
deriving Repr

/-- Embedding of the audio flush block of `EyerAVTranscode::Transcode`
(lines 139 to 176). -/
def AudioFlush (frameSize : Int) (audioOffset : Int) (streamIndex : Int)
    (encTimebase writerTimebase : EyerAVRational) (o : AudioFlushOracle) :
    AudioFlushResult :=
  -- resample.PutAVFrameNULL(); then the GetFrame drain loop: its body only
  -- logs a message; the audioEncoder.SendFrame(frame) call is
  -- commented out in the source, so the drained frames go nowhere.
  let _ := o.exactDrainFrames
  -- GetLastFrame once: on success the frame pts is set to audioOffset and
  -- audioOffset is advanced by audioEncoder.GetFrameSize(); the
  -- audioEncoder.SendFrame(frame) call is commented out in the source.
  let lastFramePts := if o.lastFrame then some audioOffset else none
  let audioOffsetAfter := if o.lastFrame then audioOffset + frameSize else audioOffset
  -- audioEncoder.SendFrameNull(); then the RecvPacket drain: each packet is
  -- given the output stream index, rescaled and written.
  { audioOffset := audioOffsetAfter
    lastFramePts := lastFramePts
    framesSubmittedToEncoder := []
    written := o.encoderFlushPackets.map (muxPrepare streamIndex encTimebase writerTimebase) }

/-! ## Writer-event skeleton of EyerAVTranscode::Transcode (lines 53 to 186)

`Transcode` has a single completion path: open the writer, initialise the
encoders, write the header, initialise decoders and resampler, run the
interleaved loop, flush the video encoder, flush the resampler and audio
encoder, write the trailer, close, `return 0`.  The packets produced inside
the loop and the flushes depend on the external codec library; the skeleton
is parametric in them and records the sequence of writer calls. -/

/-- Calls made on the `EyerAVWriter`. -/
inductive WriterEvent where
  | openWriter
  | writeHand
  | writePacket (p : MuxPacket)
  | writeTrailer
  | closeWriter
deriving DecidableEq, Repr

/-- Oracle for one full `Transcode` run: the configuration flags, the
stream indices returned by `writer.AddStream`, the packets that the
interleaved main loop writes, the video-encoder flush packets, the audio
flush oracle, and the (ignored) results of the fallible writer and encoder
initialisation calls. -/
structure TranscodeRunOracle where
  careVideo : Bool
  careAudio : Bool
  encoderVideoStreamIndex : Int
  encoderAudioStreamIndex : Int
  loopWritten : List MuxPacket
  videoFlushPackets : List MuxPacket
  videoEncTimebase : EyerAVRational
  writerVideoTimebase : EyerAVRational
  audioEncTimebase : EyerAVRational
  writerAudioTimebase : EyerAVRational
  audioFrameSize : Int
  audioFlushData : AudioFlushOracle
  openRet : Int
  initEncoderRet : Int
  writeHandRet : Int
  writePacketRets : List Int

/-- Packet writes performed by the video-encoder flush of `Transcode`
(lines 120 to 135): guarded by `params.careVideo` and a valid
`encoderVideoStreamIndex`, each drained packet goes through the mux
path. -/
def TranscodeVideoFlushEvents (o : TranscodeRunOracle) : List WriterEvent :=
  if o.careVideo then
    if 0 ≤ o.encoderVideoStreamIndex then
      (o.videoFlushPackets.map
        (muxPrepare o.encoderVideoStreamIndex o.videoEncTimebase o.writerVideoTimebase)).map
        WriterEvent.writePacket
    else []
  else []

/-- Result of the resampler and audio-encoder flush of `Transcode` (lines
139 to 176), guarded by `params.careAudio` and a valid
`encoderAudioStreamIndex`. -/
def TranscodeAudioFlushResult (o : TranscodeRunOracle) (audioOffset : Int) :
    AudioFlushResult :=
  AudioFlush o.audioFrameSize audioOffset o.encoderAudioStreamIndex
    o.audioEncTimebase o.writerAudioTimebase o.audioFlushData

/-- Packet writes performed by the audio flush of `Transcode`. -/
def TranscodeAudioFlushEvents (o : TranscodeRunOracle) (audioOffset : Int) :
    List WriterEvent :=
  if o.careAudio then
    if 0 ≤ o.encoderAudioStreamIndex then
      (TranscodeAudioFlushResult o audioOffset).written.map WriterEvent.writePacket
    else []
  else []

/-- Every writer call of a `Transcode` run between the header write and the
trailer write: the packets of the interleaved main loop (lines 94 to 117),
then the video-encoder flush, then the audio flush. -/
def TranscodeMiddleEvents (o : TranscodeRunOracle) (audioOffset : Int) :
    List WriterEvent :=
  o.loopWritten.map WriterEvent.writePacket ++ TranscodeVideoFlushEvents o ++
    TranscodeAudioFlushEvents o audioOffset

/-- Embedding of `EyerAVTranscode::Transcode`: result value, the ordered
writer events of the run, and the final `audioOffset`.  The run opens the
writer, initialises the encoders, writes the header, runs the interleaved
loop and the two flushes, writes the trailer, closes the writer and returns
zero.  The results of `writer.Open()`, `InitEncoder(writer)`,
`writer.WriteHand()` and every `writer.WritePacket(...)` are ignored by the
source, which is why the corresponding oracle fields influence nothing
below. -/
def Transcode (o : TranscodeRunOracle) (audioOffset : Int) :
    Int × List WriterEvent × Int :=
  let audioActive := o.careAudio ∧ 0 ≤ o.encoderAudioStreamIndex
  let audioOffsetFinal :=
    if audioActive then (TranscodeAudioFlushResult o audioOffset).audioOffset
    else audioOffset
  (0,
    WriterEvent.openWriter :: WriterEvent.writeHand ::
      (TranscodeMiddleEvents o audioOffset ++
        [WriterEvent.writeTrailer, WriterEvent.closeWriter]),
    audioOffsetFinal)

/-! ## The task-scheduling loop (YouTransMainWindow.cpp lines 274 to 391)

The task list is the ordered list of `TaskItem` widgets; each carries a
status.  `StartTranscodeClickListenerInternal` loops: count the tasks in
state `ING`, `PREPARE` and `FAIL`; stop when no task is `PREPARE` or when
the `ING` count has reached the configured cap (`GetTransNumSametime`);
otherwise start the first `PREPARE` task in list order and iterate.
`TaskItem::StartTask` sets the status to `ING` on its normal path
(part_000 line 190) and to `FAIL` when the input cannot be opened or the
output file already exists; the oracle `startOutcome` selects between the
two.  The public click listener first resets every `FAIL` task to
`PREPARE`; the success and failure slots call the internal function
directly. -/

/-- Status enum `EyerAVTranscoderStatus` surfaced to the task list. -/
inductive EyerAVTranscoderStatus where
  | PREPARE
  | ING
  | SUCC
  | FAIL
deriving DecidableEq, Repr

/-- Number of tasks in state `ING` (the first counting loop of
`StartTranscodeClickListenerInternal`). -/
def ingCount (tasks : List EyerAVTranscoderStatus) : Nat :=
  tasks.countP (fun s => decide (s = .ING))

/-- Number of tasks in state `PREPARE` (the second counting loop). -/
def prepareCount (tasks : List EyerAVTranscoderStatus) : Nat :=
  tasks.countP (fun s => decide (s = .PREPARE))

/-- Status a task ends up in right after `TaskItem::StartTask` returns. -/
def StartTaskStatus (ok : Bool) : EyerAVTranscoderStatus :=
  if ok then .ING else .FAIL

/-- Start the first task in `PREPARE` state, in list order (the third loop
of `StartTranscodeClickListenerInternal`, which breaks after one start). -/
def startFirstPrepare (ok : Bool) :
    List EyerAVTranscoderStatus → List EyerAVTranscoderStatus
  | [] => []
  | s :: rest =>
    if s = .PREPARE then StartTaskStatus ok :: rest
    else s :: startFirstPrepare ok rest

/-- The scheduling loop body, with fuel.  Each iteration consumes one
`PREPARE` task, so `prepareCount` fuel is exactly enough; the fuelled form
makes the recursion structural. -/
def schedLoopFuel (cap : Int) (startOutcome : Nat → Bool) :
    Nat → Nat → List EyerAVTranscoderStatus → List EyerAVTranscoderStatus
  | _, 0, tasks => tasks
  | k, fuel + 1, tasks =>
    if prepareCount tasks ≤ 0 then tasks
    else if cap ≤ (ingCount tasks : Int) then tasks
    else schedLoopFuel cap startOutcome (k + 1) fuel (startFirstPrepare (startOutcome k) tasks)

/-- Embedding of the scheduling loop of
`StartTranscodeClickListenerInternal` (lines 310 to 365). -/
def schedLoop (cap : Int) (startOutcome : Nat → Bool)
    (tasks : List EyerAVTranscoderStatus) : List EyerAVTranscoderStatus :=
  schedLoopFuel cap startOutcome 0 (prepareCount tasks) tasks

/-- Reset every `FAIL` task to `PREPARE`: the loop at the start of the
public `StartTranscodeClickListener` (lines 277 to 284). -/
def resetFailsToPrepare (tasks : List EyerAVTranscoderStatus) :
    List EyerAVTranscoderStatus :=
  tasks.map (fun s => if s = .FAIL then .PREPARE else s)

/-- One observable scheduling event of the main window: a new task item is
appended; the start button is clicked (reset of failed tasks, then the
scheduling loop); a running task terminates with success or failure (both
slots call the internal scheduling loop); a task item is removed. -/
inductive SchedStep (cap : Int) :
    List EyerAVTranscoderStatus → List EyerAVTranscoderStatus → Prop where
  | enqueue (tasks) :
      SchedStep cap tasks (tasks ++ [.PREPARE])
  | clickStart (tasks) (startOutcome : Nat → Bool) :
      SchedStep cap tasks (schedLoop cap startOutcome (resetFailsToPrepare tasks))
  | taskTerminal (pre post : List EyerAVTranscoderStatus)
      (term : EyerAVTranscoderStatus) (hterm : term = .SUCC ∨ term = .FAIL)
      (startOutcome : Nat → Bool) :
      SchedStep cap (pre ++ .ING :: post) (schedLoop cap startOutcome (pre ++ term :: post))
  | removeItem (pre post : List EyerAVTranscoderStatus) (s : EyerAVTranscoderStatus) :
      SchedStep cap (pre ++ s :: post) (pre ++ post)

/-- States of the task list reachable from the empty list through
scheduling events. -/
inductive SchedReach (cap : Int) : List EyerAVTranscoderStatus → Prop where
  | init : SchedReach cap []
  | step {tasks tasksNext} : SchedReach cap tasks →
      SchedStep cap tasks tasksNext → SchedReach cap tasksNext

/-- Recogniser for packet-write events, used to state that everything the
writer receives between header and trailer is a packet. -/
def IsPacketWrite : WriterEvent → Bool
  | .writePacket _ => true
  | _ => false

/-! ## Theorems -/

/-- C10: for every input and parameter set, `EyerAVTranscode::Transcode`
returns `0`.  The embedding is parametric in every external result the run
could observe (failed writer open, failed encoder initialisation, failed
packet writes), and none of them reaches the return value: the routine has
no failing return path. -/
theorem C10_transcode_always_returns_zero :
    ∀ (o : TranscodeRunOracle) (audioOffset : Int),
      (Transcode o audioOffset).1 = 0 := by
  intro o audioOffset
  rfl

/-- C7: every run of `Transcode` produces the writer-call sequence
open, header, a middle consisting only of packet writes, trailer, close:
the header write precedes every packet write, the trailer write precedes
the close, and trailer and close occur on the (unique) completion path. -/
theorem C7_writer_call_order :
    ∀ (o : TranscodeRunOracle) (audioOffset : Int),
      (Transcode o audioOffset).2.1 =
        WriterEvent.openWriter :: WriterEvent.writeHand ::
          (TranscodeMiddleEvents o audioOffset ++
            [WriterEvent.writeTrailer, WriterEvent.closeWriter]) ∧
      (TranscodeMiddleEvents o audioOffset).all IsPacketWrite = true := by
  intro o audioOffset
  refine ⟨rfl, ?_⟩
  simp only [List.all_eq_true]
  intro e he
  simp only [TranscodeMiddleEvents, TranscodeVideoFlushEvents,
    TranscodeAudioFlushEvents, List.mem_append] at he
  rcases he with (he | he) | he
  · rcases List.mem_map.mp he with ⟨p, _, rfl⟩
    rfl
  · split_ifs at he with h1 h2
    · rcases List.mem_map.mp he with ⟨p, _, rfl⟩
      rfl
    · simp at he
    · simp at he
  · split_ifs at he with h1 h2
    · rcases List.mem_map.mp he with ⟨p, _, rfl⟩
      rfl
    · simp at he
    · simp at he

/-- C3 counterexample: a stream of duration `3/2` seconds at target frame
rate `29` gives the product `43.5`; the source computes `43` (the `double`
product truncates on assignment to the integral `frameCount` member) while
the claim demands `round(43.5) = 44`. -/
theorem C3_frame_count_counterexample :
    computeFrameCount (3 / 2) 29 = 43 ∧
      max 1 (round ((3 / 2 : Rat) * 29)) = 44 ∧ (43 : Int) ≠ 44 := by
  refine ⟨?_, ?_, by decide⟩
  · norm_num [computeFrameCount, clampDuration, cppTrunc]
  · norm_num [round_eq]

/-- C3 amended: the total number of output frames computed before the main
loop equals the truncation (not the rounding) of
`input_video_duration_s * target_fps`, with a minimum of one frame. -/
theorem C3_frame_count_is_truncated :
    ∀ (streamDuration fps : Rat), 0 ≤ streamDuration → 0 ≤ fps →
      computeFrameCount streamDuration fps = max 1 ⌊streamDuration * fps⌋ := by
  intro d fps hd hf
  by_cases h : d ≤ 0
  · have hd0 : d = 0 := le_antisymm h hd
    subst hd0
    simp [computeFrameCount, clampDuration, cppTrunc]
  · have hp : (0 : Rat) ≤ d * fps := mul_nonneg hd hf
    have hfl : (0 : Int) ≤ ⌊d * fps⌋ := Int.floor_nonneg.mpr hp
    simp only [computeFrameCount, clampDuration, cppTrunc, if_neg h, if_pos hp]
    by_cases h2 : ⌊d * fps⌋ ≤ 0
    · have h0 : ⌊d * fps⌋ = 0 := le_antisymm h2 hfl
      simp [h0]
    · rw [if_neg h2, max_eq_right (by omega)]

/-- C3 witness: a ten-second stream at 30 fps yields exactly 300 frames. -/
theorem C3_frame_count_witness :
    (0 : Rat) ≤ 10 ∧ (0 : Rat) ≤ 30 ∧
      computeFrameCount 10 30 = max 1 ⌊(10 : Rat) * 30⌋ :=
  ⟨by norm_num, by norm_num,
    C3_frame_count_is_truncated 10 30 (by norm_num) (by norm_num)⟩

/-- C4 counterexample: the pointer variant `EyerAVReader::Read(EyerAVPacket *)`
subtracts the stream `start_time` from `pts` without checking
`AV_NOPTS_VALUE`.  When `start_time` is undefined, a packet with `pts = 100`
does not come back untouched: the subtraction of `INT64_MIN` wraps and the
packet leaves with a garbage `pts`, refuting the claim that the `pts` is
passed through untouched in every variant of `Read`. -/
theorem C4_read_ptr_counterexample :
    (EyerAVReader.ReadPtrVariant ⟨AV_NOPTS_VALUE, ⟨1, 1000⟩⟩
        (some ⟨100, 0, 0⟩)).map ReadPacket.pts = some (-9223372036854775708) ∧
      (-9223372036854775708 : Int) ≠ 100 := by
  constructor
  · simp [EyerAVReader.ReadPtrVariant, wrap64, AV_NOPTS_VALUE]
  · decide

/-- C4 amended: the reference variant of `Read` normalises `pts` by
subtracting the stream `start_time` exactly when `start_time` is defined
and passes `pts` through untouched otherwise; the pointer variant performs
the subtraction unconditionally, so an undefined `start_time` corrupts its
`pts`.  When the subtraction does not overflow, the normalised `pts` is the
plain difference, so the packet at the stream start gets `pts = 0`. -/
theorem C4_read_pts_normalisation :
    ∀ (stream : ReaderStream) (packet : ReadPacket),
      (stream.start_time ≠ AV_NOPTS_VALUE →
        (EyerAVReader.ReadRefVariant stream (some packet)).map ReadPacket.pts =
          some (wrap64 (packet.pts - stream.start_time))) ∧
      (stream.start_time = AV_NOPTS_VALUE →
        (EyerAVReader.ReadRefVariant stream (some packet)).map ReadPacket.pts =
          some packet.pts) ∧
      (EyerAVReader.ReadPtrVariant stream (some packet)).map ReadPacket.pts =
        some (wrap64 (packet.pts - stream.start_time)) ∧
      EyerAVReader.ReadRefVariant stream none = none ∧
      EyerAVReader.ReadPtrVariant stream none = none ∧
      (-(2 ^ 63) ≤ packet.pts - stream.start_time →
        packet.pts - stream.start_time < 2 ^ 63 →
        wrap64 (packet.pts - stream.start_time) = packet.pts - stream.start_time) := by
  intro stream packet
  refine ⟨?_, ?_, ?_, rfl, rfl, ?_⟩
  · intro h
    simp [EyerAVReader.ReadRefVariant, h]
  · intro h
    simp [EyerAVReader.ReadRefVariant, h]
  · simp [EyerAVReader.ReadPtrVariant]
  · intro h1 h2
    have e63 : (2 : Int) ^ 63 = 9223372036854775808 := by norm_num
    have e64 : (2 : Int) ^ 64 = 18446744073709551616 := by norm_num
    simp only [wrap64, e63, e64] at *
    omega

/-- C4 witness: a stream with defined `start_time = 5` normalises a packet
with `pts = 5` to `pts = 0` in the reference variant. -/
theorem C4_read_witness :
    (EyerAVReader.ReadRefVariant ⟨5, ⟨1, 1000⟩⟩ (some ⟨5, 0, 0⟩)).map
      ReadPacket.pts = some 0 := by
  have h := (C4_read_pts_normalisation ⟨5, ⟨1, 1000⟩⟩ ⟨5, 0, 0⟩).1 (by decide)
  simpa [wrap64] using h

/-- C5 counterexample: the MP3 branch of `EyerAVEncoder::Init` assigns
`sample_fmt`, `sample_rate` and `channel_layout`, but never assigns
`time_base`; the context built for the MP3 encoder produced by
`InitEncoder` therefore keeps the allocation default `0/1`, not the claimed
`1/44100`. -/
theorem C5_mp3_time_base_counterexample :
    ((EyerAVEncoder.Init 0 none InitEncoderAudioParams).1.map
        AVCodecContextModel.time_base) = some ⟨0, 1⟩ ∧
      (⟨0, 1⟩ : EyerAVRational) ≠ ⟨1, 44100⟩ := by
  constructor
  · rfl
  · decide

/-- C5 amended: video encoders built by `InitEncoder` are initialised with
time base `1/1000` (every video branch copies `param.timebase`, and
`InitEncoder` sets it to `1/1000`); the AAC and Opus branches set time base
`1/sample_rate`; but the MP3 branch assigns no time base at all, so the MP3
audio encoder built by `InitEncoder` keeps the allocation default `0/1`. -/
theorem C5_encoder_time_base :
    ∀ (openRet : Int) (base : EyerAVEncoderParam) (targetWidth targetHeight : Int)
      (audioParam : EyerAVEncoderParam),
      (VideoCodecId base.codecId →
        ((EyerAVEncoder.Init openRet none
            (InitEncoderVideoParams base targetWidth targetHeight)).1.map
          AVCodecContextModel.time_base) = some ⟨1, 1000⟩) ∧
      ((audioParam.codecId = .CODEC_ID_AAC ∨
          audioParam.codecId = .CODEC_ID_LIB_OPUS) →
        ((EyerAVEncoder.Init openRet none audioParam).1.map
          AVCodecContextModel.time_base) = some ⟨1, audioParam.sample_rate⟩) ∧
      ((EyerAVEncoder.Init openRet none InitEncoderAudioParams).1.map
        AVCodecContextModel.time_base) = some ⟨0, 1⟩ := by
  intro openRet base targetWidth targetHeight audioParam
  refine ⟨?_, ?_, rfl⟩
  · intro hv
    rcases hv with h | h | h | h | h | h | h <;>
      simp [EyerAVEncoder.Init, InitEncoderVideoParams, h]
  · intro ha
    rcases ha with h | h <;> simp [EyerAVEncoder.Init, h]

/-- C5 witness: an H264 video encoder inherits the `1/1000` time base and
a 48 kHz AAC encoder gets time base `1/48000`. -/
theorem C5_encoder_time_base_witness :
    ((EyerAVEncoder.Init 0 none
        (InitEncoderVideoParams
          ⟨.CODEC_ID_H264, 1920, 1080, 0, 8, ⟨1, 25⟩, 23, 0, 0, 0⟩ 1280 720)).1.map
      AVCodecContextModel.time_base) = some ⟨1, 1000⟩ ∧
    ((EyerAVEncoder.Init 0 none
        ⟨.CODEC_ID_AAC, 0, 0, 0, 0, ⟨1, 48000⟩, 0, 48000, 8, 3⟩).1.map
      AVCodecContextModel.time_base) = some ⟨1, 48000⟩ := by
  have h := C5_encoder_time_base 0
    ⟨.CODEC_ID_H264, 1920, 1080, 0, 8, ⟨1, 25⟩, 23, 0, 0, 0⟩ 1280 720
    ⟨.CODEC_ID_AAC, 0, 0, 0, 0, ⟨1, 48000⟩, 0, 48000, 8, 3⟩
  exact ⟨h.1 (by decide), h.2.1 (Or.inl rfl)⟩

/-- C9 counterexample: a successful `Init` is NOT limited to once per
encoder object.  With the external `avcodec_open2` succeeding
(`openRet = 0`), the first `Init` of an MP3 encoder succeeds and leaves an
allocated context; the second `Init` on that state frees the context and
returns `-1`; but precisely because the failed call leaves no context, a
third `Init` on the same object takes the allocation path again and
succeeds: the trace success, fail, success yields two successful `Init`
calls on one encoder object, refuting the at-most-once conjunct of the
claim at this explicit input. -/
theorem C9_encoder_reinit_counterexample :
    (EyerAVEncoder.Init 0 none InitEncoderAudioParams).2 = 0 ∧
      (EyerAVEncoder.Init 0 none InitEncoderAudioParams).1.isSome = true ∧
      EyerAVEncoder.Init 0 (EyerAVEncoder.Init 0 none InitEncoderAudioParams).1
          InitEncoderAudioParams = (none, -1) ∧
      (EyerAVEncoder.Init 0
          (EyerAVEncoder.Init 0
            (EyerAVEncoder.Init 0 none InitEncoderAudioParams).1
            InitEncoderAudioParams).1
          InitEncoderAudioParams).2 = 0 ∧
      (EyerAVEncoder.Init 0
          (EyerAVEncoder.Init 0
            (EyerAVEncoder.Init 0 none InitEncoderAudioParams).1
            InitEncoderAudioParams).1
          InitEncoderAudioParams).1.isSome = true := by
  refine ⟨rfl, rfl, rfl, rfl, rfl⟩

/-- C9 amended: for every parameter value with a supported codec id,
calling `EyerAVEncoder::Init` on an encoder whose codec context is already
allocated frees the context and returns `-1`, and the state after the
failed call holds no codec context.  Two consecutive successful `Init`
calls are therefore impossible, but a successful `Init` is not limited to
once per object: the failed call frees the context, so a further `Init` on
the same object allocates afresh and can succeed again. -/
theorem C9_encoder_double_init_fails :
    ∀ (openRet : Int) (ctx : AVCodecContextModel) (param : EyerAVEncoderParam),
      EyerAVEncoder.SupportedCodecId param.codecId →
      EyerAVEncoder.Init openRet (some ctx) param = (none, -1) := by
  intro openRet ctx param hsup
  cases hc : param.codecId <;>
    simp_all [EyerAVEncoder.Init, EyerAVEncoder.SupportedCodecId]

/-- C9 witness: a second initialisation of an MP3 encoder object fails with
`-1` and leaves no context. -/
theorem C9_encoder_double_init_witness :
    EyerAVEncoder.Init 0 (some allocContextDefaults) InitEncoderAudioParams =
      (none, -1) :=
  C9_encoder_double_init_fails 0 allocContextDefaults InitEncoderAudioParams
    (by decide)

/-- C1 counterexample: in the audio end-of-stream flush, when
`GetLastFrame` yields a short remainder frame (`frameSize = 1152`,
`audioOffset = 10000`), the source sets the frame pts to `audioOffset` but
then advances `audioOffset` by the full encoder frame size, and it submits
nothing to the encoder before flushing it: both `SendFrame` calls of the
block are commented out.  The claim states the opposite on both counts. -/
theorem C1_flush_remainder_counterexample :
    (AudioFlush 1152 10000 1 ⟨1, 44100⟩ ⟨1, 44100⟩
        ⟨0, true, []⟩).audioOffset = 11152 ∧
      (11152 : Int) ≠ 10000 ∧
      (AudioFlush 1152 10000 1 ⟨1, 44100⟩ ⟨1, 44100⟩
        ⟨0, true, []⟩).framesSubmittedToEncoder = [] ∧
      (AudioFlush 1152 10000 1 ⟨1, 44100⟩ ⟨1, 44100⟩
        ⟨0, true, []⟩).lastFramePts = some 10000 := by
  refine ⟨rfl, by decide, rfl, rfl⟩

/-- C1 amended: after the exact-size drain of the resampler reports end,
`GetLastFrame` is consulted once; if it yields a short final frame that
frame is assigned `pts = sample_offset`, `sample_offset` IS advanced by the
full encoder frame size, and the frame is NOT submitted to the encoder (the
submission is commented out in the source); the encoder flush packets are
then written through the mux path. -/
theorem C1_flush_remainder_behaviour :
    ∀ (frameSize audioOffset streamIndex : Int)
      (encTimebase writerTimebase : EyerAVRational) (o : AudioFlushOracle),
      (o.lastFrame = true →
        (AudioFlush frameSize audioOffset streamIndex encTimebase writerTimebase
            o).lastFramePts = some audioOffset ∧
        (AudioFlush frameSize audioOffset streamIndex encTimebase writerTimebase
            o).audioOffset = audioOffset + frameSize) ∧
      (o.lastFrame = false →
        (AudioFlush frameSize audioOffset streamIndex encTimebase writerTimebase
            o).lastFramePts = none ∧
        (AudioFlush frameSize audioOffset streamIndex encTimebase writerTimebase
            o).audioOffset = audioOffset) ∧
      (AudioFlush frameSize audioOffset streamIndex encTimebase writerTimebase
          o).framesSubmittedToEncoder = [] ∧
      (AudioFlush frameSize audioOffset streamIndex encTimebase writerTimebase
          o).written =
        o.encoderFlushPackets.map (muxPrepare streamIndex encTimebase writerTimebase) := by
  intro frameSize audioOffset streamIndex encTimebase writerTimebase o
  refine ⟨?_, ?_, rfl, rfl⟩
  · intro h
    constructor <;> simp [AudioFlush, h]
  · intro h
    constructor <;> simp [AudioFlush, h]

/-- C1 witness: a remainder frame at `sample_offset = 0` with MP3 frame
size 1152 gets `pts = 0` and the offset moves to 1152. -/
theorem C1_flush_remainder_witness :
    (AudioFlush 1152 0 1 ⟨1, 44100⟩ ⟨1, 44100⟩ ⟨3, true, []⟩).lastFramePts =
        some 0 ∧
      (AudioFlush 1152 0 1 ⟨1, 44100⟩ ⟨1, 44100⟩ ⟨3, true, []⟩).audioOffset =
        0 + 1152 :=
  (C1_flush_remainder_behaviour 1152 0 1 ⟨1, 44100⟩ ⟨1, 44100⟩
    ⟨3, true, []⟩).1 rfl

/-- Helper: rounding to nearest, halfway away from zero, is monotone in
the numerator for a fixed positive denominator. -/
theorem avRoundNearInf_mono {d : Int} (hd : 0 < d) {a b : Int} (h : a ≤ b) :
    avRoundNearInf a d ≤ avRoundNearInf b d := by
  have hdq : (0 : Rat) < (d : Rat) := by exact_mod_cast hd
  by_cases ha : 0 ≤ a
  · have hb : 0 ≤ b := le_trans ha h
    rw [avRoundNearInf, avRoundNearInf, if_pos ha, if_pos hb]
    apply Int.floor_le_floor
    have hq : (a : Rat) / d ≤ (b : Rat) / d := by
      apply div_le_div_of_nonneg_right ?_ hdq.le
      exact_mod_cast h
    linarith
  · by_cases hb : 0 ≤ b
    · rw [avRoundNearInf, avRoundNearInf, if_neg ha, if_pos hb]
      have h1 : (0 : Int) ≤ ⌊((-a : Int) : Rat) / d + 1 / 2⌋ := by
        apply Int.floor_nonneg.mpr
        have : (0 : Rat) ≤ ((-a : Int) : Rat) / d := by
          apply div_nonneg ?_ hdq.le
          exact_mod_cast (show (0 : Int) ≤ -a by omega)
        linarith
      have h2 : (0 : Int) ≤ ⌊(b : Rat) / d + 1 / 2⌋ := by
        apply Int.floor_nonneg.mpr
        have : (0 : Rat) ≤ (b : Rat) / d := by
          apply div_nonneg ?_ hdq.le
          exact_mod_cast hb
        linarith
      linarith [h1, h2]
    · rw [avRoundNearInf, avRoundNearInf, if_neg ha, if_neg hb]
      have hq : ((-b : Int) : Rat) / d ≤ ((-a : Int) : Rat) / d := by
        apply div_le_div_of_nonneg_right ?_ hdq.le
        exact_mod_cast (show (-b : Int) ≤ -a by omega)
      have := Int.floor_le_floor
        (α := Rat) (show ((-b : Int) : Rat) / d + 1 / 2 ≤ ((-a : Int) : Rat) / d + 1 / 2 by linarith)
      linarith [this]

/-- Helper: `av_rescale_q` with positive source and target time bases is
monotone in the rescaled value. -/
theorem av_rescale_q_mono (bq cq : EyerAVRational) (hb1 : 0 < bq.num)
    (hb2 : 0 < bq.den) (hc1 : 0 < cq.num) (hc2 : 0 < cq.den) {a b : Int}
    (h : a ≤ b) : av_rescale_q a bq cq ≤ av_rescale_q b bq cq := by
  apply avRoundNearInf_mono (mul_pos hc1 hb2)
  exact mul_le_mul_of_nonneg_right h (mul_pos hb1 hc2).le

/-- C2 counterexample: the write path of the transcode core applies only
`SetStreamIndex` and `RescaleTs` before `WritePacket`.  Feeding it two
packets with encoder dts `5` then `3` (same time base on both sides) muxes
dts `[5, 3]`: the second rescaled dts is below the last muxed dts and is
written unchanged rather than incremented, and the muxed sequence
decreases. -/
theorem C2_dts_counterexample :
    muxedDtsSeq 0 ⟨1, 1000⟩ ⟨1, 1000⟩ [⟨5, 5, 0, 0⟩, ⟨3, 3, 0, 0⟩] = [5, 3] ∧
      ¬ List.Chain' (fun a b => a ≤ b) ([5, 3] : List Int) ∧
      (3 : Int) ≤ 5 ∧
      (muxPrepare 0 ⟨1, 1000⟩ ⟨1, 1000⟩ ⟨3, 3, 0, 0⟩).dts = 3 := by
  refine ⟨?_, ?_, by norm_num, ?_⟩
  · simp only [muxedDtsSeq, muxPrepare, EyerAVPacket.RescaleTs,
      EyerAVPacket.SetStreamIndex, av_rescale_q, avRoundNearInf,
      AV_NOPTS_VALUE, List.map]
    norm_num
  · simp only [List.chain'_cons, List.chain'_singleton, and_true]
    norm_num
  · simp only [muxPrepare, EyerAVPacket.RescaleTs, EyerAVPacket.SetStreamIndex,
      av_rescale_q, avRoundNearInf, AV_NOPTS_VALUE]
    norm_num

/-- C2 amended: the mux path performs no dts adjustment; each written dts
is exactly the rescale of the encoder dts.  Non-decreasing muxed dts is
therefore only inherited: when both time bases are positive and the
encoder-side dts sequence is non-decreasing (and free of the
`AV_NOPTS_VALUE` sentinel), the muxed dts sequence is non-decreasing,
because rescaling is monotone.  No increment-on-collision exists in the
code. -/
theorem C2_dts_monotonicity :
    ∀ (streamIndex : Int) (enc wr : EyerAVRational)
      (packets : List MuxPacket),
      0 < enc.num → 0 < enc.den → 0 < wr.num → 0 < wr.den →
      (∀ p ∈ packets, p.dts ≠ AV_NOPTS_VALUE) →
      List.Chain' (fun a b => a ≤ b) (packets.map MuxPacket.dts) →
      List.Chain' (fun a b => a ≤ b) (muxedDtsSeq streamIndex enc wr packets) := by
  intro streamIndex enc wr packets hb1 hb2 hc1 hc2 hnopts hchain
  induction packets with
  | nil => simp [muxedDtsSeq]
  | cons p rest ih =>
    cases rest with
    | nil => simp [muxedDtsSeq]
    | cons q tail =>
      rw [muxedDtsSeq, List.map_cons, List.map_cons, List.chain'_cons]
      rw [List.map_cons, List.map_cons, List.chain'_cons] at hchain
      constructor
      · have hp : p.dts ≠ AV_NOPTS_VALUE := hnopts p (by simp)
        have hq : q.dts ≠ AV_NOPTS_VALUE := hnopts q (by simp)
        simp only [muxPrepare, EyerAVPacket.RescaleTs, EyerAVPacket.SetStreamIndex,
          if_pos hp, if_pos hq]
        exact av_rescale_q_mono enc wr hb1 hb2 hc1 hc2 hchain.1
      · have := ih (fun r hr => hnopts r (List.mem_cons_of_mem p hr)) hchain.2
        simpa [muxedDtsSeq] using this

/-- C2 witness: two packets with encoder dts `0` and `500` in time base
`1/1000` mux with non-decreasing dts into time base `1/90000`. -/
theorem C2_dts_monotonicity_witness :
    List.Chain' (fun a b => a ≤ b)
      (muxedDtsSeq 0 ⟨1, 1000⟩ ⟨1, 90000⟩
        [⟨0, 0, 1, 0⟩, ⟨500, 500, 1, 0⟩]) := by
  apply C2_dts_monotonicity 0 ⟨1, 1000⟩ ⟨1, 90000⟩
    [⟨0, 0, 1, 0⟩, ⟨500, 500, 1, 0⟩] (by norm_num) (by norm_num) (by norm_num)
    (by norm_num)
  · intro p hp
    simp only [List.mem_cons, List.not_mem_nil, or_false] at hp
    rcases hp with rfl | rfl
    · simp [AV_NOPTS_VALUE]
    · simp [AV_NOPTS_VALUE]
  · simp [List.chain'_cons]

/-- Helper: full characterisation of the inner loop of `TranscodeVideo`.
Any terminating run advances `frameOffset` by the number of frames it
submitted to the encoder; a run returning `0` submitted at least one frame,
its final frame is the first one whose pts exceeds the limit, and every
earlier frame is within the limit; a run returning `-1` stopped at a failed
frame pull, and every frame it submitted is within the limit. -/
theorem TranscodeVideoLoop_spec (fps limitTime : Rat) (ok : Int → Bool) :
    ∀ (fuel : Nat) (off ret offFinal : Int) (enc : List Int),
      TranscodeVideoLoop fps limitTime ok fuel off = some (ret, offFinal, enc) →
      offFinal = off + enc.length ∧
      (ret = 0 →
        enc ≠ [] ∧ enc.getLast? = some (offFinal - 1) ∧
        ¬ ((offFinal - 1 : Int) : Rat) / fps ≤ limitTime ∧
        ∀ i ∈ enc.dropLast, (i : Rat) / fps ≤ limitTime) ∧
      (ret = -1 →
        ok offFinal = false ∧ ∀ i ∈ enc, (i : Rat) / fps ≤ limitTime) := by
  intro fuel
  induction fuel with
  | zero =>
    intro off ret offFinal enc h
    simp [TranscodeVideoLoop] at h
  | succ fuel ih =>
    intro off ret offFinal enc h
    rw [TranscodeVideoLoop] at h
    by_cases h1 : ok off = false
    · rw [if_pos h1] at h
      obtain ⟨rfl, rfl, rfl⟩ : ret = -1 ∧ offFinal = off ∧ enc = [] := by
        injection h with h
        injection h with h1 h2
        injection h2 with h2 h3
        exact ⟨h1.symm, h2.symm, h3.symm⟩
      refine ⟨by simp, ?_, ?_⟩
      · intro h0
        omega
      · intro _
        exact ⟨h1, by simp⟩
    · rw [if_neg h1] at h
      by_cases h2 : (off : Rat) / fps > limitTime
      · rw [if_pos h2] at h
        obtain ⟨rfl, rfl, rfl⟩ : ret = 0 ∧ offFinal = off + 1 ∧ enc = [off] := by
          injection h with h
          injection h with ha hb
          injection hb with hb hc
          exact ⟨ha.symm, hb.symm, hc.symm⟩
        refine ⟨by simp, ?_, ?_⟩
        · intro _
          refine ⟨by simp, by simp, ?_, by simp⟩
          simpa using not_le.mpr h2
        · intro habs
          omega
      · rw [if_neg h2] at h
        cases hrec : TranscodeVideoLoop fps limitTime ok fuel (off + 1) with
        | none =>
          rw [hrec] at h
          simp at h
        | some result =>
          obtain ⟨retRec, offRec, encRec⟩ := result
          obtain ⟨hlen, hzero, hneg⟩ := ih (off + 1) retRec offRec encRec hrec
          rw [hrec] at h
          obtain ⟨rfl, rfl, rfl⟩ :
              ret = retRec ∧ offFinal = offRec ∧ enc = off :: encRec := by
            injection h with h
            injection h with ha hb
            injection hb with hb hc
            exact ⟨ha.symm, hb.symm, hc.symm⟩
          have hoffle : (off : Rat) / fps ≤ limitTime := not_lt.mp h2
          refine ⟨by simp [hlen]; omega, ?_, ?_⟩
          · intro h0
            obtain ⟨hne, hlast, hgt, hall⟩ := hzero h0
            cases encRec with
            | nil => exact absurd rfl hne
            | cons e t =>
              refine ⟨by simp, ?_, hgt, ?_⟩
              · rw [List.getLast?_cons_cons]
                exact hlast
              · intro i hi
                rw [List.dropLast_cons₂] at hi
                rcases List.mem_cons.mp hi with rfl | hi
                · exact hoffle
                · exact hall i hi
          · intro hneg1
            obtain ⟨hok, hall⟩ := hneg hneg1
            refine ⟨hok, ?_⟩
            intro i hi
            rcases List.mem_cons.mp hi with rfl | hi
            · exact hoffle
            · exact hall i hi

/-- Helper: concrete evaluation of one burst with `fps = 2`, time limit
`1/2`, a single total frame and an always-succeeding frame pull: the burst
submits frames `0`, `1` and `2` and stops with code `0` at offset `3`. -/
theorem TranscodeVideo_small_run :
    TranscodeVideo 2 (1 / 2) 1 (fun _ => true) 10 0 = some (0, 3, [0, 1, 2]) := by
  have h8 : TranscodeVideoLoop 2 (1 / 2) (fun _ => true) 8 2 = some (0, 3, [2]) := by
    rw [show (8 : Nat) = 7 + 1 from rfl, TranscodeVideoLoop]
    norm_num
  have h9 : TranscodeVideoLoop 2 (1 / 2) (fun _ => true) 9 1 = some (0, 3, [1, 2]) := by
    rw [show (9 : Nat) = 8 + 1 from rfl, TranscodeVideoLoop]
    norm_num [h8]
  have h10 : TranscodeVideoLoop 2 (1 / 2) (fun _ => true) 10 0 = some (0, 3, [0, 1, 2]) := by
    rw [show (10 : Nat) = 9 + 1 from rfl, TranscodeVideoLoop]
    norm_num [h9]
  rw [TranscodeVideo, if_neg (by norm_num : ¬ (0 : Int) ≥ 1), h10]

/-- C6 counterexample: a burst with `fps = 2`, `limit = 1/2` and a single
total frame (`frameCount = 1`) with an always-succeeding frame pull encodes
the frames `0`, `1` and `2`, although frame `2` has `pts = 1 > 1/2` (so a
frame with logical pts strictly greater than the limit is encoded and
`frame_offset` is advanced past it), and the burst returns `0` (not done)
although the final `frame_offset` (3) is at least `total_frames` (1): done
is reported only by the entry check of the next burst. -/
theorem C6_video_burst_counterexample :
    TranscodeVideo 2 (1 / 2) 1 (fun _ => true) 10 0 = some (0, 3, [0, 1, 2]) ∧
      (2 : Int) ∈ ([0, 1, 2] : List Int) ∧
      ¬ ((2 : Rat) / 2 ≤ 1 / 2) ∧
      ¬ ((3 : Int) < 1) ∧ (0 : Int) ≠ -1 := by
  refine ⟨TranscodeVideo_small_run, by decide, by norm_num, by decide, by decide⟩

/-- C6 amended: in every terminating video burst, the entry check
`frameOffset >= frameCount` alone reports done; inside the loop
`frame_offset` advances through every submitted frame, all submitted frames
but the last have `pts ≤ limit`, while the last submitted frame of a burst
that returns `0` has `pts > limit` (it is encoded and `frame_offset` is
advanced past it before the burst stops); a burst that returns `-1` from
inside the loop does so because a frame pull failed, regardless of
`frame_offset` against `total_frames`. -/
theorem C6_video_burst_behaviour :
    ∀ (fps limitTime : Rat) (frameCount : Int) (ok : Int → Bool) (fuel : Nat)
      (off ret offFinal : Int) (enc : List Int),
      TranscodeVideo fps limitTime frameCount ok fuel off =
        some (ret, offFinal, enc) →
      (off ≥ frameCount → ret = -1 ∧ offFinal = off ∧ enc = []) ∧
      (¬ off ≥ frameCount →
        offFinal = off + enc.length ∧
        (ret = 0 →
          enc ≠ [] ∧ enc.getLast? = some (offFinal - 1) ∧
          ¬ ((offFinal - 1 : Int) : Rat) / fps ≤ limitTime ∧
          ∀ i ∈ enc.dropLast, (i : Rat) / fps ≤ limitTime) ∧
        (ret = -1 →
          ok offFinal = false ∧ ∀ i ∈ enc, (i : Rat) / fps ≤ limitTime)) := by
  intro fps limitTime frameCount ok fuel off ret offFinal enc h
  rw [TranscodeVideo] at h
  by_cases hent : off ≥ frameCount
  · rw [if_pos hent] at h
    obtain ⟨rfl, rfl, rfl⟩ : ret = -1 ∧ offFinal = off ∧ enc = [] := by
      injection h with h
      injection h with ha hb
      injection hb with hb hc
      exact ⟨ha.symm, hb.symm, hc.symm⟩
    exact ⟨fun _ => ⟨rfl, rfl, rfl⟩, fun habs => absurd hent habs⟩
  · rw [if_neg hent] at h
    refine ⟨fun habs => absurd habs hent, fun _ => ?_⟩
    exact TranscodeVideoLoop_spec fps limitTime ok fuel off ret offFinal enc h

/-- C6 witness: the concrete burst of `TranscodeVideo_small_run` satisfies
the amended characterisation: it submitted a nonempty frame list ending at
frame 2, whose pts exceeds the limit while all earlier pts do not. -/
theorem C6_video_burst_witness :
    (([0, 1, 2] : List Int) ≠ [] ∧
      ([0, 1, 2] : List Int).getLast? = some ((3 : Int) - 1) ∧
      ¬ ((3 - 1 : Int) : Rat) / 2 ≤ 1 / 2 ∧
      ∀ i ∈ ([0, 1, 2] : List Int).dropLast, (i : Rat) / 2 ≤ 1 / 2) := by
  have h := C6_video_burst_behaviour 2 (1 / 2) 1 (fun _ => true) 10 0 0 3
    [0, 1, 2] TranscodeVideo_small_run
  exact ((h.2 (by norm_num)).2.1) rfl

/-- Helper: starting one task raises the number of running tasks by at most
one. -/
theorem ingCount_startFirstPrepare_le (b : Bool)
    (ts : List EyerAVTranscoderStatus) :
    ingCount (startFirstPrepare b ts) ≤ ingCount ts + 1 := by
  induction ts with
  | nil => simp [startFirstPrepare, ingCount]
  | cons s rest ih =>
    by_cases hs : s = .PREPARE
    · subst hs
      cases b <;>
        simp [startFirstPrepare, StartTaskStatus, ingCount, List.countP_cons]
    · simp only [startFirstPrepare, if_neg hs]
      simp only [ingCount, List.countP_cons] at *
      omega

/-- Helper: the scheduling loop never lets the number of running tasks
exceed the cap, provided it was within the cap on entry. -/
theorem ingCount_schedLoopFuel_le (cap : Int) (startOutcome : Nat → Bool) :
    ∀ (fuel k : Nat) (ts : List EyerAVTranscoderStatus),
      (ingCount ts : Int) ≤ cap →
      (ingCount (schedLoopFuel cap startOutcome k fuel ts) : Int) ≤ cap := by
  intro fuel
  induction fuel with
  | zero =>
    intro k ts h
    simpa [schedLoopFuel] using h
  | succ fuel ih =>
    intro k ts h
    rw [schedLoopFuel]
    split_ifs with h1 h2
    · exact h
    · exact h
    · apply ih
      push_neg at h2
      have := ingCount_startFirstPrepare_le (startOutcome k) ts
      omega

/-- Helper: the same bound for the wrapped scheduling loop. -/
theorem ingCount_schedLoop_le (cap : Int) (startOutcome : Nat → Bool)
    (ts : List EyerAVTranscoderStatus) (h : (ingCount ts : Int) ≤ cap) :
    (ingCount (schedLoop cap startOutcome ts) : Int) ≤ cap :=
  ingCount_schedLoopFuel_le cap startOutcome (prepareCount ts) 0 ts h

/-- Helper: resetting failed tasks to prepared does not change the number
of running tasks. -/
theorem ingCount_resetFailsToPrepare (ts : List EyerAVTranscoderStatus) :
    ingCount (resetFailsToPrepare ts) = ingCount ts := by
  induction ts with
  | nil => rfl
  | cons s rest ih =>
    cases s <;> simp_all [resetFailsToPrepare, ingCount, List.countP_cons]

/-- Helper: every state reachable through scheduling events keeps the
number of running tasks within a nonnegative cap. -/
theorem ingCount_schedReach_le (cap : Int) (h0 : 0 ≤ cap) :
    ∀ (tasks : List EyerAVTranscoderStatus), SchedReach cap tasks →
      (ingCount tasks : Int) ≤ cap := by
  intro tasks hr
  induction hr with
  | init => simpa [ingCount] using h0
  | step hprev hstep ih =>
    rename_i tasksPrev tasksNext
    cases hstep with
    | enqueue =>
      have he : ingCount (tasksPrev ++ [EyerAVTranscoderStatus.PREPARE]) =
          ingCount tasksPrev := by
        simp [ingCount, List.countP_append]
      rw [he]
      exact ih
    | clickStart startOutcome =>
      apply ingCount_schedLoop_le
      rw [ingCount_resetFailsToPrepare]
      exact ih
    | taskTerminal pre post term hterm startOutcome =>
      apply ingCount_schedLoop_le
      have hterm0 : (decide (term = EyerAVTranscoderStatus.ING) : Bool) = false := by
        rcases hterm with rfl | rfl <;> decide
      have h1 : ingCount (pre ++ term :: post) ≤
          ingCount (pre ++ .ING :: post) := by
        simp [ingCount, List.countP_append, List.countP_cons, hterm0]
      have h2 := ih
      omega
    | removeItem pre post s =>
      have h1 : ingCount (pre ++ post) ≤ ingCount (pre ++ s :: post) := by
        simp only [ingCount, List.countP_append, List.countP_cons]
        omega
      have h2 := ih
      omega

/-- C8: in every state of the task list reachable through scheduling
events, the number of tasks in state `ING` is at most the configured
concurrent-task cap; the scheduling loop starts nothing once the running
count has reached the cap; and when it does start a task, it starts the
first (oldest) task in `PREPARE` state in list order. -/
theorem C8_concurrency_cap :
    ∀ (cap : Int) (tasks : List EyerAVTranscoderStatus),
      0 ≤ cap → SchedReach cap tasks →
      (ingCount tasks : Int) ≤ cap ∧
      (∀ (startOutcome : Nat → Bool) (ts : List EyerAVTranscoderStatus),
        cap ≤ (ingCount ts : Int) → schedLoop cap startOutcome ts = ts) ∧
      (∀ (b : Bool) (pre post : List EyerAVTranscoderStatus),
        (∀ s ∈ pre, s ≠ EyerAVTranscoderStatus.PREPARE) →
        startFirstPrepare b (pre ++ .PREPARE :: post) =
          pre ++ StartTaskStatus b :: post) := by
  intro cap tasks h0 hr
  refine ⟨ingCount_schedReach_le cap h0 tasks hr, ?_, ?_⟩
  · intro startOutcome ts hcap
    unfold schedLoop
    cases hp : prepareCount ts with
    | zero => rfl
    | succ n =>
      rw [schedLoopFuel, if_neg (by omega), if_pos hcap]
  · intro b pre post hpre
    induction pre with
    | nil => simp [startFirstPrepare]
    | cons s rest ih =>
      have hs : s ≠ EyerAVTranscoderStatus.PREPARE := hpre s (by simp)
      simp only [List.cons_append, startFirstPrepare, if_neg hs]
      exact congrArg (fun l => s :: l)
        (ih (fun r hr => hpre r (List.mem_cons_of_mem s hr)))

/-- C8 witness: with cap 2 the state with two running tasks is reachable
(two enqueues, then a click that starts both); its running count is within
the cap, the loop does not start the third task of a fuller list, and a
start picks the oldest prepared task. -/
theorem C8_concurrency_cap_witness :
    (ingCount [EyerAVTranscoderStatus.ING, EyerAVTranscoderStatus.ING] : Int) ≤ 2 ∧
      schedLoop 2 (fun _ => true)
          [EyerAVTranscoderStatus.ING, EyerAVTranscoderStatus.ING,
            EyerAVTranscoderStatus.PREPARE] =
        [EyerAVTranscoderStatus.ING, EyerAVTranscoderStatus.ING,
          EyerAVTranscoderStatus.PREPARE] ∧
      startFirstPrepare true
          ([EyerAVTranscoderStatus.ING] ++ .PREPARE :: [EyerAVTranscoderStatus.SUCC]) =
        [EyerAVTranscoderStatus.ING] ++
          StartTaskStatus true :: [EyerAVTranscoderStatus.SUCC] := by
  have r2 : SchedReach 2 [EyerAVTranscoderStatus.PREPARE, EyerAVTranscoderStatus.PREPARE] :=
    SchedReach.step (SchedReach.step SchedReach.init (SchedStep.enqueue []))
      (SchedStep.enqueue [EyerAVTranscoderStatus.PREPARE])
  have r3 : SchedReach 2 [EyerAVTranscoderStatus.ING, EyerAVTranscoderStatus.ING] :=
    SchedReach.step r2
      (SchedStep.clickStart [EyerAVTranscoderStatus.PREPARE, EyerAVTranscoderStatus.PREPARE]
        (fun _ => true))
  have h := C8_concurrency_cap 2
    [EyerAVTranscoderStatus.ING, EyerAVTranscoderStatus.ING] (by norm_num) r3
  refine ⟨h.1, ?_, ?_⟩
  · exact h.2.1 (fun _ => true)
      [EyerAVTranscoderStatus.ING, EyerAVTranscoderStatus.ING,
        EyerAVTranscoderStatus.PREPARE] (by decide)
  · apply h.2.2 true [EyerAVTranscoderStatus.ING] [EyerAVTranscoderStatus.SUCC]
    intro s hs
    simp only [List.mem_singleton] at hs
    subst hs
    decide

end YouTranser
